import Mathlib

/-!
Verification of the TeleMenu inline-keyboard engine.

Shallow embedding of the repository's five modules:
  * `button.js`        — `Button` (kind, label, requirement, per-render flags, callback token)
  * `buttonManager.js` — `ButtonManager` (row/column grid, `addButton`, `newRow`, serialization)
  * `menuRange.js`     — `MenuRange` (builder forwarding into a transient grid)
  * `menu.js`          — `Menu` (builder API, the `#evaluate` placeholder-splicing walk,
                         routing in `middleware`)
  * `menuManager.js`   — `MenuManager` (registry with `deepFreeze` on registration,
                         global render state)

Modelling conventions:
  * The request context and the navigation payload are type parameters `C` and `P`.
  * JS mutation of `this` becomes explicit state passing: a method that mutates its
    receiver returns the updated value.
  * A JS function that may `throw` is modelled in `Except String`; a `try { … } catch`
    block becomes a `match` on that `Except`.
  * `#generateCallbackData` hashes volatile entropy (`Date.now()`, `Math.random()`);
    the generated token is therefore passed in as an explicit `String` argument wherever
    the source calls it (once in the constructor, once on the fly in `toJSON`).
  * `Object.freeze` (reached through `deepFreeze` in `menuManager.js`) is modelled by a
    `frozen` flag on `Button`, `ButtonManager` and `Menu`; the `…F` variants of the
    builder operations check the flag exactly where the source would hit a frozen array
    or object (a `push` onto a frozen array throws `TypeError` in strict mode), while
    private-field writes (`#isDisable`, `#isHidden`, `#_temporaryButtons`, the private
    `#_dynamicGenerators` array) are unaffected by freezing and so never consult it.
-/

namespace TeleMenu

/-- Button kinds, from the `type` option of `button.js` (`'action' | 'url' | 'webApp' |
'placeholder'`). -/
inductive BKind where
  | action
  | url
  | webApp
  | placeholder
  deriving DecidableEq

/-- The api object `Menu.#createMenuApi` hands to button handlers.  Its JS closures
(`update`, `nav`, `back`, `getPayload`) are all bound to one menu (`targetMenu || this`);
the binding is modelled by recording that menu's identifying fields. -/
structure MenuApi where
  boundMenuId : String
  boundParentId : Option String
  deriving DecidableEq

/-- A button middleware / disabled-handler: may return normally or throw. -/
abbrev Handler (C : Type) := C → MenuApi → Except String Unit

/-- A button label: either literal text or a function of the context
(`#_label` / `#_labelFunction` in `button.js`). -/
inductive BtnLabel (C : Type) where
  | str (s : String)
  | fn (f : C → String)

/-- The normalized requirement stored on a constructed button (`this.requirement` in the
`Button` constructor). -/
structure Requirement (C : Type) where
  require : C → Bool
  disable : Bool
  doWhenDisable : Handler C
  hidden : Bool

/-- The requirement configuration accepted by the `Button` constructor, with every field
optional. -/
structure RequirementOpts (C : Type) where
  require : Option (C → Bool) := none
  disable : Bool := false
  doWhenDisable : Option (Handler C) := none
  hidden : Bool := false

/-- The options object accepted by the `Button` constructor. -/
structure ButtonOpts (C : Type) where
  type : BKind
  url : Option String := none
  middleware : Option (Handler C) := none
  requirement : RequirementOpts C := {}

/-- One interactive element, translated from the `Button` class of `button.js`.
`isDisable` / `isHidden` are the private per-render flags; `frozen` models
`Object.isFrozen` on the object (see the module comment). -/
structure Button (C : Type) where
  type : BKind
  url : Option String
  middleware : Option (Handler C)
  requirement : Requirement C
  isDisable : Bool
  isHidden : Bool
  label : BtnLabel C
  callbackData : Option String
  frozen : Bool

/-- The `Button` constructor.  `freshTok` is the value `#generateCallbackData` would
produce (a 16-hex-character hash of volatile entropy, hence never the empty string in
the source).  Defaults follow the constructor body:
`require: requirement.require || (() => true)`, `disable: !!requirement.disable || false`,
`doWhenDisable: requirement.doWhenDisable || (() => { })`,
`hidden: !!requirement.hidden || false`,
`callbackData = type === 'action' ? generate : null`. -/
def Button.new (label : BtnLabel C) (o : ButtonOpts C) (freshTok : String) : Button C :=
  { type := o.type
    url := o.url
    middleware := o.middleware
    requirement :=
      { require := o.requirement.require.getD (fun _ => true)
        disable := o.requirement.disable
        doWhenDisable := o.requirement.doWhenDisable.getD (fun _ _ => Except.ok ())
        hidden := o.requirement.hidden }
    isDisable := false
    isHidden := false
    label := label
    callbackData := if o.type = BKind.action then some freshTok else none
    frozen := false }

/-- `Button.#getLabel`: the label function when present, else the literal label. -/
def Button.getLabel (b : Button C) (ctx : C) : String :=
  match b.label with
  | BtnLabel.fn f => f ctx
  | BtnLabel.str s => s

/-- The `rawLabel` getter: the literal label, `null` when the label is a function. -/
def Button.rawLabel (b : Button C) : Option String :=
  match b.label with
  | BtnLabel.str s => some s
  | BtnLabel.fn _ => none

/-- `Button.evaluateRequirement` (button.js lines 80–90): placeholder kind sets
`#isHidden = true` and returns `false`; any other kind runs the predicate and sets
`#isDisable = !check && disable`, `#isHidden = !check && hidden`, returning `check`.
The updated button is returned alongside the result. -/
def Button.evaluateRequirement (b : Button C) (ctx : C) : Button C × Bool :=
  if b.type = BKind.placeholder then
    ({ b with isHidden := true }, false)
  else
    let check := b.requirement.require ctx
    ({ b with
        isDisable := !check && b.requirement.disable
        isHidden := !check && b.requirement.hidden }, check)

/-- Which handler an invocation ran (for stating at-most-once execution). -/
inductive CallEv where
  | act
  | dis
  deriving DecidableEq

/-- `Button.handler` (button.js lines 98–113).  Re-runs `evaluateRequirement`; if it
passed and a middleware exists, runs it inside `try { … } catch (logged)`; else if the
button is disabled, runs `doWhenDisable` inside the same kind of `try`/`catch`; else
does nothing.  The `Except` layer is the function's own ability to throw; every throwing
call of the body sits inside a `catch`, which the `match` on the inner `Except` models.
The returned list records which handlers actually ran (the handlers' return values are
not modelled). -/
def Button.handler (b : Button C) (ctx : C) (menuApi : MenuApi) :
    Except String (Button C × List CallEv) :=
  let r := b.evaluateRequirement ctx
  let b' := r.1
  let check := r.2
  if check && b'.middleware.isSome then
    match b'.middleware with
    | some m =>
      match m ctx menuApi with
      | Except.ok _ => Except.ok (b', [CallEv.act])
      | Except.error _ => Except.ok (b', [CallEv.act])
    | none => Except.ok (b', [])
  else if b'.isDisable then
    match b'.requirement.doWhenDisable ctx menuApi with
    | Except.ok _ => Except.ok (b', [CallEv.dis])
    | Except.error _ => Except.ok (b', [CallEv.dis])
  else
    Except.ok (b', [])

/-- One wire-level inline keyboard button (`{text, url?, callback_data?}`). -/
structure WireButton where
  text : String
  url : Option String := none
  callback_data : Option String := none
  deriving DecidableEq

/-- The locked marker `toJSON` appends to a disabled button's label. -/
def lockMark : String := " 🔒"

/-- `Button.toJSON` (button.js lines 131–147).  `null` when hidden or placeholder kind;
the disabled branch uses `this.callbackData || this.#generateCallbackData('action')`
(`fresh` stands for the freshly generated token, and JS `||` treats the empty string as
absent); the final branch spreads `url` and `callback_data` only when truthy. -/
def Button.toJSON (b : Button C) (ctx : C) (fresh : String) : Option WireButton :=
  if b.isHidden then none
  else if b.type = BKind.placeholder then none
  else if b.isDisable then
    some { text := b.getLabel ctx ++ lockMark
           callback_data := some (match b.callbackData with
             | some s => if s = "" then fresh else s
             | none => fresh) }
  else
    some { text := b.getLabel ctx
           url := match b.url with
             | some u => if u = "" then none else some u
             | none => none
           callback_data := match b.callbackData with
             | some s => if s = "" then none else some s
             | none => none }

/-- `this.buttons[this.buttons.length - 1].push(button)`: append to the last row. -/
def pushLast : List (List α) → α → List (List α)
  | [], b => [[b]]
  | [r], b => [r ++ [b]]
  | r :: r' :: rs, b => r :: pushLast (r' :: rs) b

/-- `ButtonManager.newRow`: `if (length === 0 || last.length > 0) push([])`. -/
def newRowL : List (List α) → List (List α)
  | [] => [[]]
  | [r] => if r.isEmpty then [r] else [r, []]
  | r :: r' :: rs => r :: newRowL (r' :: rs)

/-- The grid of `buttonManager.js`: `this.buttons = [[]]` at construction.  `frozen`
models `Object.isFrozen` on the manager together with its (recursively frozen) arrays. -/
structure ButtonManager (C : Type) where
  buttons : List (List (Button C))
  frozen : Bool

/-- `new ButtonManager()`. -/
def ButtonManager.new : ButtonManager C := { buttons := [[]], frozen := false }

/-- `ButtonManager.addButton` on an unfrozen manager (the `instanceof` guard is enforced
by typing). -/
def ButtonManager.addButton (bm : ButtonManager C) (b : Button C) : ButtonManager C :=
  { bm with buttons := pushLast bm.buttons b }

/-- `ButtonManager.newRow` on an unfrozen manager. -/
def ButtonManager.newRow (bm : ButtonManager C) : ButtonManager C :=
  { bm with buttons := newRowL bm.buttons }

/-- `ButtonManager.evaluateAll`: run `evaluateRequirement` on every button (the source
awaits them one after another; each call only touches its own button, so this is a map). -/
def ButtonManager.evaluateAll (bm : ButtonManager C) (ctx : C) : ButtonManager C :=
  { bm with buttons := bm.buttons.map (fun row => row.map (fun b => (b.evaluateRequirement ctx).1)) }

/-- The wire-level keyboard `{inline_keyboard: …}`. -/
structure Keyboard where
  inline_keyboard : List (List WireButton)
  deriving DecidableEq

/-- `ButtonManager.toJSON` (part_002 lines 61–72): per row, keep the non-`null`
serializations; keep only rows with `rowData.length > 0`.  `fresh` is the external
entropy for any on-the-fly token generation (see `Button.toJSON`). -/
def ButtonManager.toJSON (bm : ButtonManager C) (ctx : C) (fresh : String) : Keyboard :=
  { inline_keyboard :=
      (bm.buttons.map (fun row => row.filterMap (fun b => b.toJSON ctx fresh))).filter
        (fun rowData => decide (0 < rowData.length)) }

namespace MenuRange

/-- `MenuRange.text`: construct an action button and add it to the backing manager.
The range object only forwards into its `buttonManager`, so range operations are
modelled directly as operations on that manager. -/
def text (bm : ButtonManager C) (label : BtnLabel C) (mw : Option (Handler C))
    (req : RequirementOpts C) (freshTok : String) : ButtonManager C :=
  bm.addButton (Button.new label
    { type := BKind.action, middleware := mw, requirement := req } freshTok)

/-- `MenuRange.url`. -/
def url (bm : ButtonManager C) (label : BtnLabel C) (u : String)
    (req : RequirementOpts C) : ButtonManager C :=
  bm.addButton (Button.new label { type := BKind.url, url := some u, requirement := req } "")

/-- `MenuRange.webApp`. -/
def webApp (bm : ButtonManager C) (label : BtnLabel C) (u : String)
    (req : RequirementOpts C) : ButtonManager C :=
  bm.addButton (Button.new label { type := BKind.webApp, url := some u, requirement := req } "")

/-- `MenuRange.row`. -/
def row (bm : ButtonManager C) : ButtonManager C := bm.newRow

end MenuRange

/-- One registered dynamic generator (`{id, generator}` in `Menu.dynamic`).  A generator
receives the context, the payload and the range; its observable effect is the transient
manager it builds through the range, so it is modelled as a function on that manager. -/
structure DynGen (C P : Type) where
  id : String
  generator : C → P → ButtonManager C → ButtonManager C

/-- The `Menu` class of `menu.js`.  Caption handling is not modelled (no claim concerns
it).  `temporaryButtons` is the private `#_temporaryButtons` (the currently rendered
grid), `dynamicGenerators` the private `#_dynamicGenerators`; both are private fields
and hence unaffected by `deepFreeze`. -/
structure Menu (C P : Type) where
  menuId : String
  buttons : ButtonManager C
  parentMenuId : Option String
  dynamicGenerators : List (DynGen C P)
  temporaryButtons : Option (ButtonManager C)
  frozen : Bool

/-- The `Menu` constructor (a menu id is required; enforced by typing). -/
def Menu.new (menuId : String) : Menu C P :=
  { menuId := menuId
    buttons := ButtonManager.new
    parentMenuId := none
    dynamicGenerators := []
    temporaryButtons := none
    frozen := false }

/-- `Menu.text`: construct an action button and add it to the static grid. -/
def Menu.text (m : Menu C P) (label : BtnLabel C) (mw : Option (Handler C))
    (req : RequirementOpts C) (freshTok : String) : Menu C P :=
  { m with buttons := m.buttons.addButton (Button.new label
      { type := BKind.action, middleware := mw, requirement := req } freshTok) }

/-- `Menu.url`. -/
def Menu.url (m : Menu C P) (label : BtnLabel C) (u : String)
    (req : RequirementOpts C) : Menu C P :=
  { m with buttons := m.buttons.addButton (Button.new label
      { type := BKind.url, url := some u, requirement := req } "") }

/-- `Menu.webApp`. -/
def Menu.webApp (m : Menu C P) (label : BtnLabel C) (u : String)
    (req : RequirementOpts C) : Menu C P :=
  { m with buttons := m.buttons.addButton (Button.new label
      { type := BKind.webApp, url := some u, requirement := req } "") }

/-- The placeholder-label marker used by `Menu.dynamic` and recognized by
`Menu.#evaluate`. -/
def placeholderMark : String := "__placeholder_"

/-- `Menu.dynamic` (menu.js lines 86–107): allocate `dynamic_${n}`, record the
generator, and add an invisible placeholder button labelled
`__placeholder_${dynamicId}__` with `requirement: { hidden: true }`. -/
def Menu.dynamic (m : Menu C P) (g : C → P → ButtonManager C → ButtonManager C) :
    Menu C P :=
  let dynamicId := "dynamic_" ++ toString m.dynamicGenerators.length
  { m with
      dynamicGenerators := m.dynamicGenerators ++ [{ id := dynamicId, generator := g }]
      buttons := m.buttons.addButton (Button.new
        (BtnLabel.str (placeholderMark ++ dynamicId ++ "__"))
        { type := BKind.placeholder, requirement := { hidden := true } } "") }

/-- `Menu.row`. -/
def Menu.row (m : Menu C P) : Menu C P := { m with buttons := m.buttons.newRow }

/-- Character-level anchored pattern match (the test `pat` occurs at the head of the
text), used to model `String.startsWith` and first-occurrence `String.replace`. -/
def matchesAt : List Char → List Char → Bool
  | [], _ => true
  | _ :: _, [] => false
  | p :: ps, c :: cs => p == c && matchesAt ps cs

/-- JS `s.startsWith(pat)`. -/
def strStartsWith (s pat : String) : Bool := matchesAt pat.data s.data

/-- Replace the first occurrence of `pat` (leaving the text unchanged when `pat` does
not occur), on character lists. -/
def replaceFirstChars (pat repl : List Char) : List Char → List Char
  | [] => []
  | c :: cs =>
    if matchesAt pat (c :: cs) then repl ++ (c :: cs).drop pat.length
    else c :: replaceFirstChars pat repl cs

/-- JS `s.replace(pat, repl)` with a string pattern: replaces only the first
occurrence. -/
def jsReplaceFirst (s pat repl : String) : String :=
  { data := replaceFirstChars pat.data repl.data s.data }

/-- JS truthiness of a nullable string (`null`, `undefined` and `''` are falsy). -/
def jsTruthyStr : Option String → Bool
  | some s => s != ""
  | none => false

/-- The placeholder test of `Menu.#evaluate` (menu.js line 293):
`button.type === 'placeholder' && button.rawLabel &&
button.rawLabel.startsWith('__placeholder_')`. -/
def Button.isPlaceholderMark (b : Button C) : Bool :=
  b.type == BKind.placeholder && jsTruthyStr b.rawLabel
    && strStartsWith (b.rawLabel.getD "") placeholderMark

/-- The slot-id extraction of `Menu.#evaluate` (menu.js line 294):
`button.rawLabel.replace('__placeholder_', '').replace('__', '')`. -/
def Button.dynamicIdOf (b : Button C) : String :=
  jsReplaceFirst (jsReplaceFirst (b.rawLabel.getD "") placeholderMark "") "__" ""

/-- The per-render generated content: slot id ↦ the rows of the transient manager the
slot's generator built (the `generatedContent` Map of `Menu.#evaluate`). -/
abbrev GenContent (C : Type) := List (String × List (List (Button C)))

/-- `generatedContent.get(dynamicId)`. -/
def lookupContent (gen : GenContent C) (id : String) : Option (List (List (Button C))) :=
  (gen.find? (fun p => p.1 == id)).map (fun p => p.2)

/-- The inner splice loop of `Menu.#evaluate` (menu.js lines 298–308): for each row of
the generated sub-grid add its buttons, with a `newRow` between consecutive sub-grid
rows (`if (i < dynamicButtons.length - 1)`) but none after the last. -/
def spliceRows : ButtonManager C → List (List (Button C)) → ButtonManager C
  | bm, [] => bm
  | bm, [r] => r.foldl ButtonManager.addButton bm
  | bm, r :: r' :: rs => spliceRows ((r.foldl ButtonManager.addButton bm).newRow) (r' :: rs)

/-- One column step of the `Menu.#evaluate` walk (menu.js lines 290–313): a recognized
placeholder is replaced by splicing its generated rows (nothing when the slot has no
recorded content or zero rows); any other button is copied over with `addButton`. -/
def mergeButton (gen : GenContent C) (bm : ButtonManager C) (b : Button C) :
    ButtonManager C :=
  if b.isPlaceholderMark then
    match lookupContent gen b.dynamicIdOf with
    | some dynRows => if 0 < dynRows.length then spliceRows bm dynRows else bm
    | none => bm
  else bm.addButton b

/-- The row walk of `Menu.#evaluate` (menu.js lines 287–318): fold every row through
`mergeButton`, with a `newRow` between consecutive static rows
(`if (rowIndex < originalButtons.length - 1)`). -/
def mergeRows (gen : GenContent C) : ButtonManager C → List (List (Button C)) → ButtonManager C
  | bm, [] => bm
  | bm, [row] => row.foldl (mergeButton gen) bm
  | bm, row :: row' :: rest => mergeRows gen ((row.foldl (mergeButton gen) bm).newRow) (row' :: rest)

/-- Step 1 of `Menu.#evaluate`: run every registered generator against a fresh
transient manager (through its range) and record the resulting rows under the slot id. -/
def Menu.genContent (m : Menu C P) (ctx : C) (payload : P) : GenContent C :=
  m.dynamicGenerators.map (fun d => (d.id, (d.generator ctx payload ButtonManager.new).buttons))

/-- `Menu.#evaluate` (menu.js lines 272–321): build the generated content, walk the
static grid into a fresh `#_temporaryButtons` manager, then `evaluateAll` on it.  The
context and payload are the values `MenuManager.getContext()` / `getPayload()` return,
passed explicitly. -/
def Menu.evaluate (m : Menu C P) (ctx : C) (payload : P) : Menu C P :=
  { m with
      temporaryButtons :=
        some ((mergeRows (m.genContent ctx payload) ButtonManager.new
          m.buttons.buttons).evaluateAll ctx) }

/-- `this.#_temporaryButtons || this.buttons` — the currently rendered grid, falling
back to the static grid when the menu was never evaluated. -/
def Menu.rendered (m : Menu C P) : ButtonManager C := m.temporaryButtons.getD m.buttons

/-- `Menu.toJSON`: serialize the currently rendered grid. -/
def Menu.toJSON (m : Menu C P) (ctx : C) (fresh : String) : Keyboard :=
  m.rendered.toJSON ctx fresh

/-- `Menu.#createMenuApi(targetMenu)`: `const menu = targetMenu || this`; every closure
of the returned api is bound to that menu. -/
def Menu.createMenuApi (self : Menu C P) (targetMenu : Option (Menu C P)) : MenuApi :=
  let menu := targetMenu.getD self
  { boundMenuId := menu.menuId, boundParentId := menu.parentMenuId }

/-- The column scan of one row in `Menu.middleware`
(`button.callbackData === callbackData`, break on first hit). -/
def findInRow (cbd : String) : List (Button C) → Option (Button C)
  | [] => none
  | b :: bs => if b.callbackData = some cbd then some b else findInRow cbd bs

/-- The row scan of one menu's grid in `Menu.middleware` (rows top-to-bottom, break on
first hit). -/
def findInRows (cbd : String) : List (List (Button C)) → Option (Button C)
  | [] => none
  | r :: rs =>
    match findInRow cbd r with
    | some b => some b
    | none => findInRows cbd rs

/-- The menu scan of `Menu.middleware` (menu.js lines 351–368): iterate the registered
menus in order, scanning `menu.#_temporaryButtons || menu.buttons`; the first matching
button is returned together with the menu that owns it. -/
def findRoute (cbd : String) : List (String × Menu C P) → Option (Button C × Menu C P)
  | [] => none
  | (_, m) :: rest =>
    match findInRows cbd m.rendered.buttons with
    | some b => some (b, m)
    | none => findRoute cbd rest

/-- The observable outcome of one routing pass. -/
inductive RouteOutcome (C : Type) where
  | noCallback
  | invoked (b : Button C) (api : MenuApi) (result : Except String (Button C × List CallEv))
  | unroutable (cbd : String)

/-- The routing core of `Menu.middleware` (menu.js lines 345–375), after the menu list
`allMenus` has been fixed: no callback data returns to `next()`; a found button is
invoked via `foundButton.handler(ctx, this.#createMenuApi(foundMenu))`; otherwise the
interaction is logged (`No button found for callback data: …`) and nothing else
happens. -/
def Menu.routeCallback (self : Menu C P) (menus : List (String × Menu C P)) (ctx : C)
    (callbackData : Option String) : RouteOutcome C :=
  match callbackData with
  | none => RouteOutcome.noCallback
  | some cbd =>
    match findRoute cbd menus with
    | some (b, m) =>
      let menuApi := self.createMenuApi (some m)
      RouteOutcome.invoked b menuApi (b.handler ctx menuApi)
    | none => RouteOutcome.unroutable cbd

/-- The media type of the message being edited (`'text' | 'media'`). -/
inductive MediaType where
  | text
  | media
  deriving DecidableEq

/-- The `MenuManager` statics (part_002 lines 80–84): the registry plus the transient
render-scoped state. -/
structure ManagerState (C P : Type) where
  menus : List (String × Menu C P) := []
  context : Option C := none
  currentMessageId : Option Nat := none
  mediaType : MediaType := MediaType.text
  payload : Option P := none

/-- `Object.freeze` on a button (its own enumerable properties hold no further
unfrozen objects that the engine ever mutates). -/
def Button.freeze (b : Button C) : Button C := { b with frozen := true }

/-- `deepFreeze` reaching a `ButtonManager`: the manager, its `buttons` array, each row
and each contained button are frozen. -/
def ButtonManager.freeze (bm : ButtonManager C) : ButtonManager C :=
  { buttons := bm.buttons.map (fun row => row.map Button.freeze), frozen := true }

/-- `deepFreeze(menu)`: the menu and its enumerable properties (`buttons` and
everything under it) are frozen; the private fields (`#_dynamicGenerators`,
`#_temporaryButtons`) are not enumerable own properties and stay untouched. -/
def Menu.freeze (m : Menu C P) : Menu C P :=
  { m with buttons := m.buttons.freeze, frozen := true }

/-- `MenuManager.registerMenu` (part_002 lines 90–98): an id already present is
silently ignored; otherwise the menu is deep-frozen and stored. -/
def MenuManager.registerMenu (st : ManagerState C P) (m : Menu C P) : ManagerState C P :=
  if (st.menus.find? (fun p => p.1 == m.menuId)).isSome then st
  else { st with menus := st.menus ++ [(m.menuId, m.freeze)] }

/-- `MenuManager.getMenuById` (part_002 lines 104–110): `throw` when the id is
absent. -/
def MenuManager.getMenuById (st : ManagerState C P) (menuId : String) :
    Except String (Menu C P) :=
  match (st.menus.find? (fun p => p.1 == menuId)).map (fun p => p.2) with
  | some m => Except.ok m
  | none => Except.error ("Menu with ID " ++ menuId ++ " does not exist.")

/-- `MenuManager.setContext` (part_002 lines 127–139): the context is always
overwritten; the message id only when truthy (`if (messageId)` — `0`, `null` and
`undefined` are falsy); the media type only when one is supplied. -/
def MenuManager.setContext (st : ManagerState C P) (newContext : C)
    (messageId : Option Nat) (mediaType : Option MediaType) : ManagerState C P :=
  { st with
      context := some newContext
      currentMessageId :=
        match messageId with
        | some i => if i = 0 then st.currentMessageId else some i
        | none => st.currentMessageId
      mediaType :=
        match mediaType with
        | some mt => mt
        | none => st.mediaType }

/-- `MenuManager.setPayload` (part_002 lines 169–172): always overwritten (`undefined`
collapses to `null`, which `Option` already expresses). -/
def MenuManager.setPayload (st : ManagerState C P) (payload : Option P) :
    ManagerState C P :=
  { st with payload := payload }

/-- The registry update `Menu.middleware` performs before routing (menu.js line 341):
`MenuManager.setContext(ctx, ctx.callbackQuery?.message.message_id)` — no media type
and no payload are passed. -/
def Menu.middlewareSetState (st : ManagerState C P) (ctx : C)
    (callbackMessageId : Option Nat) : ManagerState C P :=
  MenuManager.setContext st ctx callbackMessageId none

/-- A JS runtime error raised by mutating a frozen object in strict mode. -/
inductive JsError where
  | typeError
  deriving DecidableEq

/-- `ButtonManager.addButton` on a possibly-frozen manager: `push` onto a frozen row
array throws a `TypeError` and leaves everything unchanged. -/
def ButtonManager.addButtonF (bm : ButtonManager C) (b : Button C) :
    ButtonManager C × Option JsError :=
  if bm.frozen then (bm, some JsError.typeError) else (bm.addButton b, none)

/-- `ButtonManager.newRow` on a possibly-frozen manager: the push is only reached when
the current row is non-empty (or the row list is empty), and throws exactly then on a
frozen manager. -/
def ButtonManager.newRowF (bm : ButtonManager C) : ButtonManager C × Option JsError :=
  if bm.buttons.length = 0 ∨ 0 < ((bm.buttons.getLast?).getD []).length then
    if bm.frozen then (bm, some JsError.typeError) else (bm.newRow, none)
  else (bm, none)

/-- `Menu.text` on a possibly-frozen menu. -/
def Menu.textF (m : Menu C P) (label : BtnLabel C) (mw : Option (Handler C))
    (req : RequirementOpts C) (freshTok : String) : Menu C P × Option JsError :=
  let r := m.buttons.addButtonF (Button.new label
    { type := BKind.action, middleware := mw, requirement := req } freshTok)
  ({ m with buttons := r.1 }, r.2)

/-- `Menu.url` on a possibly-frozen menu. -/
def Menu.urlF (m : Menu C P) (label : BtnLabel C) (u : String)
    (req : RequirementOpts C) : Menu C P × Option JsError :=
  let r := m.buttons.addButtonF (Button.new label
    { type := BKind.url, url := some u, requirement := req } "")
  ({ m with buttons := r.1 }, r.2)

/-- `Menu.webApp` on a possibly-frozen menu. -/
def Menu.webAppF (m : Menu C P) (label : BtnLabel C) (u : String)
    (req : RequirementOpts C) : Menu C P × Option JsError :=
  let r := m.buttons.addButtonF (Button.new label
    { type := BKind.webApp, url := some u, requirement := req } "")
  ({ m with buttons := r.1 }, r.2)

/-- `Menu.dynamic` on a possibly-frozen menu: the push onto the private
`#_dynamicGenerators` array succeeds even when the menu is frozen (private fields are
not frozen), and only the subsequent `addButton` of the placeholder throws. -/
def Menu.dynamicF (m : Menu C P) (g : C → P → ButtonManager C → ButtonManager C) :
    Menu C P × Option JsError :=
  let dynamicId := "dynamic_" ++ toString m.dynamicGenerators.length
  let m1 := { m with dynamicGenerators :=
                m.dynamicGenerators ++ [({ id := dynamicId, generator := g } : DynGen C P)] }
  let r := m1.buttons.addButtonF (Button.new
    (BtnLabel.str (placeholderMark ++ dynamicId ++ "__"))
    { type := BKind.placeholder, requirement := { hidden := true } } "")
  ({ m1 with buttons := r.1 }, r.2)

/-- `Menu.row` on a possibly-frozen menu. -/
def Menu.rowF (m : Menu C P) : Menu C P × Option JsError :=
  let r := m.buttons.newRowF
  ({ m with buttons := r.1 }, r.2)

/-! ### Well-formedness of element kinds

The spec's data model restricts `url` to link/embedded-app kinds and gives action-kind
elements their construction-time token (a 16-hex-character hash, never empty).  Every
element built through the builder API satisfies this. -/

/-- Kind/field consistency of the spec's data model. -/
def Button.WellFormedKind (b : Button C) : Prop :=
  (b.type = BKind.action → b.url = none ∧ ∃ t, b.callbackData = some t ∧ t ≠ "")
    ∧ ((b.type = BKind.url ∨ b.type = BKind.webApp) →
        b.callbackData = none ∧ ∃ u, b.url = some u ∧ u ≠ "")

/-! ### Claim theorems -/

/-- C3: `evaluateRequirement` on a placeholder-kind element sets hidden and returns
`false` without touching anything else (in particular the result does not depend on the
predicate); on any other kind it runs the predicate and sets
`isDisabled = predicate-failed AND disableOnFail`,
`isHidden = predicate-failed AND hideOnFail`, returning the raw predicate result; and a
button constructed without a predicate gets the always-true default. -/
theorem claim3_requirement_evaluation {C : Type} (b : Button C) (ctx : C) :
    (b.type = BKind.placeholder →
      b.evaluateRequirement ctx = ({ b with isHidden := true }, false))
    ∧ (b.type ≠ BKind.placeholder →
      b.evaluateRequirement ctx =
        ({ b with
            isDisable := !(b.requirement.require ctx) && b.requirement.disable
            isHidden := !(b.requirement.require ctx) && b.requirement.hidden },
          b.requirement.require ctx))
    ∧ (∀ (label : BtnLabel C) (o : ButtonOpts C) (tok : String),
        o.requirement.require = none →
        ∀ c : C, (Button.new label o tok).requirement.require c = true) := by
  refine ⟨fun h => ?_, fun h => ?_, fun label o tok h c => ?_⟩
  · simp [Button.evaluateRequirement, h]
  · simp [Button.evaluateRequirement, h]
  · simp [Button.new, h]

/-- A concrete run of C3: a placeholder is hidden without consulting its predicate, and
a requirement-free action button defaults to an always-true predicate. -/
theorem claim3_witness :
    (let ph : Button Nat := Button.new (BtnLabel.str "__placeholder_dynamic_0__")
        { type := BKind.placeholder, requirement := { hidden := true } } ""
     ph.evaluateRequirement 0 = ({ ph with isHidden := true }, false))
    ∧ (Button.new (BtnLabel.str "Go") ({ type := BKind.action } : ButtonOpts Nat)
        "tok0").requirement.require 7 = true :=
  ⟨(claim3_requirement_evaluation _ 0).1 rfl,
   (claim3_requirement_evaluation (Button.new (BtnLabel.str "Go")
      ({ type := BKind.action } : ButtonOpts Nat) "tok0") 0).2.2
      (BtnLabel.str "Go") { type := BKind.action } "tok0" rfl 7⟩

/-- C2: serialization omits hidden elements and placeholder-kind elements regardless of
the disabled flag; a disabled, non-hidden element serializes to its resolved label with
the locked marker appended plus a callback token and no url; otherwise the element
serializes to its resolved label with exactly one of url / callback token, according to
its kind. -/
theorem claim2_serialize_rules {C : Type} (b : Button C) (ctx : C) (fresh : String) :
    (b.isHidden = true → b.toJSON ctx fresh = none)
    ∧ (b.type = BKind.placeholder → b.toJSON ctx fresh = none)
    ∧ (b.isHidden = false → b.type ≠ BKind.placeholder → b.isDisable = true →
        ∃ tok, b.toJSON ctx fresh =
          some { text := b.getLabel ctx ++ lockMark, url := none, callback_data := some tok })
    ∧ (b.isHidden = false → b.type ≠ BKind.placeholder → b.isDisable = false →
        b.WellFormedKind →
        ∃ w, b.toJSON ctx fresh = some w ∧ w.text = b.getLabel ctx
          ∧ (w.url.isSome ↔ ¬ w.callback_data.isSome = true)
          ∧ (b.type = BKind.action → w.url = none ∧ w.callback_data = b.callbackData)
          ∧ ((b.type = BKind.url ∨ b.type = BKind.webApp) →
              w.url = b.url ∧ w.callback_data = none)) := by
  refine ⟨fun h => ?_, fun h => ?_, fun h1 h2 h3 => ?_, fun h1 h2 h3 hwf => ?_⟩
  · simp [Button.toJSON, h]
  · simp [Button.toJSON, h]
  · exact ⟨(match b.callbackData with
        | some s => if s = "" then fresh else s
        | none => fresh), by simp [Button.toJSON, h1, h2, h3]⟩
  · refine ⟨{ text := b.getLabel ctx
              url := match b.url with
                | some u => if u = "" then none else some u
                | none => none
              callback_data := match b.callbackData with
                | some s => if s = "" then none else some s
                | none => none },
      by simp [Button.toJSON, h1, h2, h3], rfl, ?_, ?_, ?_⟩
    · cases htype : b.type with
      | action =>
        obtain ⟨hurl, t, htok, htne⟩ := hwf.1 htype
        simp [hurl, htok, htne]
      | url =>
        obtain ⟨htok, u, hurl, hune⟩ := hwf.2 (Or.inl htype)
        simp [hurl, htok, hune]
      | webApp =>
        obtain ⟨htok, u, hurl, hune⟩ := hwf.2 (Or.inr htype)
        simp [hurl, htok, hune]
      | placeholder => exact absurd htype h2
    · intro htype
      obtain ⟨hurl, t, htok, htne⟩ := hwf.1 htype
      simp [hurl, htok, htne]
    · intro hk
      obtain ⟨htok, u, hurl, hune⟩ := hwf.2 hk
      simp [hurl, htok, hune]

/-- A concrete run of C2: an enabled action button serializes to its label with its
token and no url. -/
theorem claim2_witness :
    ∃ w, (Button.new (BtnLabel.str "Go") ({ type := BKind.action } : ButtonOpts Nat)
        "tokA").toJSON 0 "fresh" = some w
      ∧ w.text = (Button.new (BtnLabel.str "Go") ({ type := BKind.action } : ButtonOpts Nat)
          "tokA").getLabel 0
      ∧ (w.url.isSome ↔ ¬ w.callback_data.isSome = true)
      ∧ ((Button.new (BtnLabel.str "Go") ({ type := BKind.action } : ButtonOpts Nat)
          "tokA").type = BKind.action →
          w.url = none ∧ w.callback_data = (Button.new (BtnLabel.str "Go")
            ({ type := BKind.action } : ButtonOpts Nat) "tokA").callbackData) := by
  obtain ⟨w, h1, h2, h3, h4, _⟩ :=
    (claim2_serialize_rules (Button.new (BtnLabel.str "Go")
      ({ type := BKind.action } : ButtonOpts Nat) "tokA") 0 "fresh").2.2.2
      rfl (by decide) rfl
      ⟨fun _ => ⟨rfl, "tokA", rfl, by decide⟩, fun h => absurd h (by decide)⟩
  exact ⟨w, h1, h2, h3, h4⟩

/-- C7: `invoke` (the `handler` method) first re-runs `evaluateRequirement`; it never
raises: when the requirement passed and a middleware exists, the middleware runs exactly
once with any failure swallowed; otherwise, when the element ended up disabled, the
disabled-handler runs exactly once under the same policy; otherwise nothing runs. -/
theorem claim7_invoke_swallows_errors {C : Type} (b : Button C) (ctx : C) (api : MenuApi) :
    (∃ out, b.handler ctx api = Except.ok out)
    ∧ ((b.evaluateRequirement ctx).2 = true → ((b.evaluateRequirement ctx).1).middleware.isSome = true →
        b.handler ctx api = Except.ok ((b.evaluateRequirement ctx).1, [CallEv.act]))
    ∧ (¬((b.evaluateRequirement ctx).2 = true ∧ ((b.evaluateRequirement ctx).1).middleware.isSome = true) →
        ((b.evaluateRequirement ctx).1).isDisable = true →
        b.handler ctx api = Except.ok ((b.evaluateRequirement ctx).1, [CallEv.dis]))
    ∧ (¬((b.evaluateRequirement ctx).2 = true ∧ ((b.evaluateRequirement ctx).1).middleware.isSome = true) →
        ((b.evaluateRequirement ctx).1).isDisable = false →
        b.handler ctx api = Except.ok ((b.evaluateRequirement ctx).1, [])) := by
  unfold Button.handler
  refine ⟨?_, fun hc hm => ?_, fun hn hd => ?_, fun hn hd => ?_⟩
  · by_cases hcm : (b.evaluateRequirement ctx).2 && ((b.evaluateRequirement ctx).1).middleware.isSome
    · simp only [hcm, if_true]
      cases hm : ((b.evaluateRequirement ctx).1).middleware with
      | none => simp
      | some f => cases hr : f ctx api <;> simp [hr]
    · simp only [hcm, if_false]
      by_cases hd : ((b.evaluateRequirement ctx).1).isDisable
      · simp only [hd, if_true]
        cases hr : ((b.evaluateRequirement ctx).1).requirement.doWhenDisable ctx api <;> simp [hr]
      · simp [hd]
  · obtain ⟨f, hf⟩ := Option.isSome_iff_exists.mp hm
    simp only [hc, hf, Option.isSome_some, Bool.and_self, if_true]
    cases hr : f ctx api <;> rfl
  · have : ¬((b.evaluateRequirement ctx).2 && ((b.evaluateRequirement ctx).1).middleware.isSome) = true := by
      simp only [Bool.and_eq_true]; exact hn
    simp only [this, if_false, hd, if_true]
    cases hr : ((b.evaluateRequirement ctx).1).requirement.doWhenDisable ctx api <;> rfl
  · have : ¬((b.evaluateRequirement ctx).2 && ((b.evaluateRequirement ctx).1).middleware.isSome) = true := by
      simp only [Bool.and_eq_true]; exact hn
    simp [this, hd]

/-- A concrete run of C7: a button whose middleware throws still yields an `ok`
invocation with the action attempted exactly once. -/
theorem claim7_witness :
    (Button.new (BtnLabel.str "Boom")
        ({ type := BKind.action,
           middleware := some (fun _ _ => Except.error "kaboom") } : ButtonOpts Nat)
        "tokB").handler 0 { boundMenuId := "m", boundParentId := none } =
      Except.ok (((Button.new (BtnLabel.str "Boom")
        ({ type := BKind.action,
           middleware := some (fun _ _ => Except.error "kaboom") } : ButtonOpts Nat)
        "tokB").evaluateRequirement 0).1, [CallEv.act]) :=
  (claim7_invoke_swallows_errors (Button.new (BtnLabel.str "Boom")
      ({ type := BKind.action,
         middleware := some (fun _ _ => Except.error "kaboom") } : ButtonOpts Nat)
      "tokB") 0 { boundMenuId := "m", boundParentId := none }).2.1 rfl rfl

/-- C9: the callback token of an action-kind element is fixed at construction
(`callbackData = generate()` exactly for action kind), is preserved by requirement
evaluation and invocation, is the very value emitted as the wire token whenever the
element serializes, and in particular two serializations under the same evaluated flags
emit the same token whatever fresh entropy is available. -/
theorem claim9_identifier_stability {C : Type} (ctx : C) (api : MenuApi) :
    (∀ (label : BtnLabel C) (o : ButtonOpts C) (tok : String), o.type = BKind.action →
        (Button.new label o tok).callbackData = some tok)
    ∧ (∀ b : Button C, ((b.evaluateRequirement ctx).1).callbackData = b.callbackData)
    ∧ (∀ (b b' : Button C) (evs : List CallEv), b.handler ctx api = Except.ok (b', evs) →
        b'.callbackData = b.callbackData)
    ∧ (∀ (b : Button C) (t : String), b.type = BKind.action → b.callbackData = some t →
        t ≠ "" → ∀ (fresh : String) (w : WireButton), b.toJSON ctx fresh = some w →
          w.callback_data = some t)
    ∧ (∀ (b : Button C), b.type = BKind.action → (∃ t, b.callbackData = some t ∧ t ≠ "") →
        ∀ f₁ f₂ : String, (b.toJSON ctx f₁).map WireButton.callback_data =
          (b.toJSON ctx f₂).map WireButton.callback_data) := by
  refine ⟨fun label o tok h => ?_, fun b => ?_, fun b b' evs h => ?_,
    fun b t htype htok htne fresh w hw => ?_, fun b htype ⟨t, htok, htne⟩ f₁ f₂ => ?_⟩
  · simp [Button.new, h]
  · unfold Button.evaluateRequirement
    by_cases h : b.type = BKind.placeholder <;> simp [h]
  · have hcb : ((b.evaluateRequirement ctx).1).callbackData = b.callbackData := by
      unfold Button.evaluateRequirement
      by_cases hp : b.type = BKind.placeholder <;> simp [hp]
    unfold Button.handler at h
    dsimp only at h
    split at h
    · split at h
      · split at h <;> (simp only [Except.ok.injEq, Prod.mk.injEq] at h; exact h.1 ▸ hcb)
      · simp only [Except.ok.injEq, Prod.mk.injEq] at h; exact h.1 ▸ hcb
    · split at h
      · split at h <;> (simp only [Except.ok.injEq, Prod.mk.injEq] at h; exact h.1 ▸ hcb)
      · simp only [Except.ok.injEq, Prod.mk.injEq] at h; exact h.1 ▸ hcb
  · unfold Button.toJSON at hw
    have hp : ¬ b.type = BKind.placeholder := by simp [htype]
    by_cases hh : b.isHidden = true
    · simp [hh] at hw
    · by_cases hd : b.isDisable = true
      · simp [hh, hp, hd] at hw
        rw [← hw]
        simp [htok, htne]
      · simp [hh, hp, hd] at hw
        rw [← hw]
        simp [htok, htne]
  · unfold Button.toJSON
    by_cases hh : b.isHidden
    · simp [hh]
    · have hp : ¬ b.type = BKind.placeholder := by simp [htype]
      by_cases hd : b.isDisable <;> simp [hh, hp, hd, htok, htne]

/-- A concrete run of C9: an action button's stored token survives requirement
evaluation, and serialization emits it whatever entropy is supplied. -/
theorem claim9_witness :
    (((Button.new (BtnLabel.str "Go") ({ type := BKind.action } : ButtonOpts Nat)
        "tokC").evaluateRequirement 3).1).callbackData =
      (Button.new (BtnLabel.str "Go") ({ type := BKind.action } : ButtonOpts Nat)
        "tokC").callbackData
    ∧ ((Button.new (BtnLabel.str "Go") ({ type := BKind.action } : ButtonOpts Nat)
        "tokC").toJSON 3 "f1").map WireButton.callback_data =
      ((Button.new (BtnLabel.str "Go") ({ type := BKind.action } : ButtonOpts Nat)
        "tokC").toJSON 3 "f2").map WireButton.callback_data :=
  ⟨(claim9_identifier_stability 3 { boundMenuId := "m", boundParentId := none }).2.1 _,
   (claim9_identifier_stability 3 { boundMenuId := "m", boundParentId := none }).2.2.2.2
      _ rfl ⟨"tokC", rfl, by decide⟩ "f1" "f2"⟩

/-- Appending an entry for key `k` makes a key-`k` lookup succeed. -/
theorem find?_append_key {A : Type} (l : List (String × A)) (k : String) (v : A) :
    ((l ++ [(k, v)]).find? (fun p => p.1 == k)).isSome = true := by
  induction l with
  | nil => simp [List.find?]
  | cons a l ih =>
    by_cases h : (a.1 == k) = true
    · simp [List.find?, h]
    · simp [List.find?, h, ih]

/-- C6: registering a second menu under an id already present leaves the registry
exactly as after the first registration (first registration wins), and looking up an
unregistered id fails with a NotFound error. -/
theorem claim6_first_registration_wins {C P : Type} (st : ManagerState C P)
    (m₁ m₂ : Menu C P) (id : String) :
    (m₂.menuId = m₁.menuId →
      MenuManager.registerMenu (MenuManager.registerMenu st m₁) m₂ =
        MenuManager.registerMenu st m₁)
    ∧ ((∀ p ∈ st.menus, p.1 ≠ id) →
        ∃ e, MenuManager.getMenuById st id = Except.error e) := by
  constructor
  · intro hid
    by_cases h : (st.menus.find? (fun p => p.1 == m₁.menuId)).isSome = true
    · simp [MenuManager.registerMenu, hid, h]
    · simp [MenuManager.registerMenu, hid, h, find?_append_key]
  · intro hall
    have hfind : st.menus.find? (fun p => p.1 == id) = none := by
      rw [List.find?_eq_none]
      intro p hp
      simpa using hall p hp
    simp [MenuManager.getMenuById, hfind]

/-- A concrete run of C6: re-registering id `dup` with a different definition is a
no-op, and looking up an id that was never registered errors. -/
theorem claim6_witness :
    MenuManager.registerMenu
        (MenuManager.registerMenu ({} : ManagerState Nat Nat) (Menu.new "dup"))
        ((Menu.new "dup").text (BtnLabel.str "Other") none {} "tokD") =
      MenuManager.registerMenu ({} : ManagerState Nat Nat) (Menu.new "dup")
    ∧ ∃ e, MenuManager.getMenuById ({} : ManagerState Nat Nat) "ghost" = Except.error e :=
  ⟨(claim6_first_registration_wins ({} : ManagerState Nat Nat) (Menu.new "dup")
      ((Menu.new "dup").text (BtnLabel.str "Other") none {} "tokD") "ghost").1 rfl,
   (claim6_first_registration_wins ({} : ManagerState Nat Nat) (Menu.new "dup")
      ((Menu.new "dup").text (BtnLabel.str "Other") none {} "tokD") "ghost").2
      (by intro p hp; simp at hp)⟩

/-- A registry state left over by a previous pass: a payload, a message ref and a media
kind are all recorded. -/
def staleState : ManagerState Nat Nat :=
  { menus := []
    context := some 1
    currentMessageId := some 5
    mediaType := MediaType.media
    payload := some 42 }

/-- C8 counterexample: the state update a routing pass performs
(`MenuManager.setContext(ctx, ctx.callbackQuery?.message.message_id)`, menu.js line 341)
does not overwrite all four transient fields.  With no truthy message id it leaves
`activePayload`, `activeContentKind` and `activeMessageRef` at the previous pass's
values, so the post-pass state depends on state older than the current pass —
contradicting the claim that every pass overwrites all four fields. -/
theorem claim8_counterexample :
    (Menu.middlewareSetState staleState 7 none).payload = some 42
    ∧ (Menu.middlewareSetState staleState 7 none).mediaType = MediaType.media
    ∧ (Menu.middlewareSetState staleState 7 none).currentMessageId = some 5
    ∧ ¬ (∀ st st' : ManagerState Nat Nat, st.menus = st'.menus →
          Menu.middlewareSetState st 7 none = Menu.middlewareSetState st' 7 none) := by
  refine ⟨rfl, rfl, rfl, fun h => ?_⟩
  have h2 := congrArg ManagerState.payload (h staleState { menus := [] } rfl)
  simp [Menu.middlewareSetState, MenuManager.setContext, staleState] at h2

/-- C8 (amended): on a render/route pass `setContext` always overwrites the active
context, overwrites the active message ref only when a non-zero message id is supplied,
and overwrites the active content kind only when one is supplied; the active payload is
untouched by `setContext` and is overwritten only by `setPayload` (called during
navigation).  In particular the middleware's routing pass leaves payload and content
kind at their previous-pass values. -/
theorem claim8_transient_state_semantics {C P : Type} (st : ManagerState C P) (ctx : C)
    (msgId : Option Nat) (mt : Option MediaType) (p : Option P) :
    ((MenuManager.setContext st ctx msgId mt).context = some ctx)
    ∧ (∀ i : Nat, i ≠ 0 →
        (MenuManager.setContext st ctx (some i) mt).currentMessageId = some i)
    ∧ ((MenuManager.setContext st ctx none mt).currentMessageId = st.currentMessageId)
    ∧ (∀ k, (MenuManager.setContext st ctx msgId (some k)).mediaType = k)
    ∧ ((MenuManager.setContext st ctx msgId none).mediaType = st.mediaType)
    ∧ ((MenuManager.setContext st ctx msgId mt).payload = st.payload)
    ∧ ((MenuManager.setPayload st p).payload = p)
    ∧ ((Menu.middlewareSetState st ctx msgId).payload = st.payload
        ∧ (Menu.middlewareSetState st ctx msgId).mediaType = st.mediaType) := by
  refine ⟨rfl, fun i hi => ?_, rfl, fun k => rfl, rfl, rfl, rfl, rfl, rfl⟩
  simp [MenuManager.setContext, hi]

/-- A concrete run of C8 (amended): a pass supplying message id 9 records it. -/
theorem claim8_witness :
    (MenuManager.setContext ({} : ManagerState Nat Nat) 3 (some 9) none).currentMessageId =
      some 9 :=
  (claim8_transient_state_semantics ({} : ManagerState Nat Nat) 3 (some 9) none
    none).2.1 9 (by decide)

/-- Appending to the last row leaves the earlier rows alone. -/
theorem pushLast_concat (ds : List (List α)) (cur : List α) (b : α) :
    pushLast (ds ++ [cur]) b = ds ++ [cur ++ [b]] := by
  induction ds with
  | nil => rfl
  | cons d ds ih =>
    cases ds with
    | nil => simp [pushLast]
    | cons d' ds' => simpa [pushLast] using ih

/-- `newRow` in terms of the current (last) row: a push exactly when it is non-empty. -/
theorem newRowL_concat (ds : List (List α)) (cur : List α) :
    newRowL (ds ++ [cur]) = ds ++ (if cur.isEmpty then [cur] else [cur, []]) := by
  induction ds with
  | nil => rfl
  | cons d ds ih =>
    cases ds with
    | nil => simp [newRowL]
    | cons d' ds' => simpa [newRowL] using ih

/-- The grids reachable from a fresh manager by any sequence of `addButton` / `newRow`
calls. -/
inductive ReachableBM {C : Type} : ButtonManager C → Prop where
  | start : ReachableBM ButtonManager.new
  | add (bm : ButtonManager C) (b : Button C) : ReachableBM bm → ReachableBM (bm.addButton b)
  | row (bm : ButtonManager C) : ReachableBM bm → ReachableBM bm.newRow

/-- Normal form kept by the builder: the grid is non-empty and only its last row can be
empty. -/
def NormalGrid (l : List (List α)) : Prop :=
  l ≠ [] ∧ ∀ r ∈ l.dropLast, r ≠ []

/-- Every reachable grid is in normal form. -/
theorem reachable_normal {C : Type} (bm : ButtonManager C) (h : ReachableBM bm) :
    NormalGrid bm.buttons := by
  induction h with
  | start => exact ⟨by simp [ButtonManager.new], by simp [ButtonManager.new]⟩
  | add bm b _ ih =>
    obtain ⟨hne, hrows⟩ := ih
    obtain ⟨ds, cur, hds⟩ := (List.eq_nil_or_concat bm.buttons).resolve_left hne
    rw [List.concat_eq_append] at hds
    have hd : bm.buttons.dropLast = ds := by rw [hds, List.dropLast_concat]
    have hgrid : (bm.addButton b).buttons = ds ++ [cur ++ [b]] := by
      simp [ButtonManager.addButton, hds, pushLast_concat]
    constructor
    · rw [hgrid]; simp
    · intro r hr
      rw [hgrid, List.dropLast_concat] at hr
      exact hrows r (hd.symm ▸ hr)
  | row bm _ ih =>
    obtain ⟨hne, hrows⟩ := ih
    obtain ⟨ds, cur, hds⟩ := (List.eq_nil_or_concat bm.buttons).resolve_left hne
    rw [List.concat_eq_append] at hds
    have hd : bm.buttons.dropLast = ds := by rw [hds, List.dropLast_concat]
    by_cases hcur : cur.isEmpty = true
    · have hgrid : (bm.newRow).buttons = bm.buttons := by
        simp [ButtonManager.newRow, hds, newRowL_concat, hcur]
      exact ⟨by rw [hgrid]; exact hne, fun r hr => hrows r (by rw [hgrid] at hr; exact hr)⟩
    · have hgrid : (bm.newRow).buttons = (ds ++ [cur]) ++ [[]] := by
        simp [ButtonManager.newRow, hds, newRowL_concat, hcur]
      constructor
      · rw [hgrid]; simp
      · intro r hr
        rw [hgrid, List.dropLast_concat] at hr
        rcases List.mem_append.mp hr with hm | hm
        · exact hrows r (hd.symm ▸ hm)
        · rw [List.mem_singleton] at hm
          subst hm
          simpa [List.isEmpty_iff] using hcur

/-- In a normal-form grid an empty row is never followed by another row. -/
theorem normal_no_adjacent_empty (l : List (List α)) (hrows : ∀ r ∈ l.dropLast, r ≠ []) :
    ∀ i, ¬ (l.get? i = some [] ∧ l.get? (i + 1) ≠ none) := by
  induction l with
  | nil => intro i h; simp at h
  | cons a l ih =>
    intro i h
    obtain ⟨h0, h1⟩ := h
    cases i with
    | zero =>
      cases l with
      | nil => simp at h1
      | cons b l' =>
        have ha : a = [] := by simpa using h0
        exact hrows a (by simp [List.dropLast]) ha
    | succ j =>
      cases l with
      | nil => simp at h0
      | cons b l' =>
        refine ih ?_ j ⟨by simpa using h0, by simpa using h1⟩
        intro r hr
        exact hrows r (by simp [List.dropLast]; right; exact hr)

/-- C4: `newRow` is a no-op when the current (last) row is empty; consequently no
sequence of `addButton` / `newRow` calls ever produces two adjacent empty rows (an
empty row can only sit at the very end); serialization keeps only non-empty
rows, as a sublist of the per-row serializations (hence in original relative order);
and a row whose elements are all hidden disappears from the output entirely. -/
theorem claim4_grid_row_structure {C : Type} (bm : ButtonManager C) (ctx : C)
    (fresh : String) :
    (∀ ds : List (List (Button C)), bm.buttons = ds ++ [[]] → bm.newRow = bm)
    ∧ (ReachableBM bm →
        ∀ i, ¬ (bm.buttons.get? i = some [] ∧ bm.buttons.get? (i + 1) ≠ none))
    ∧ (∀ r ∈ (bm.toJSON ctx fresh).inline_keyboard, r ≠ [])
    ∧ ((bm.toJSON ctx fresh).inline_keyboard.Sublist
        (bm.buttons.map (fun row => row.filterMap (fun b => b.toJSON ctx fresh))))
    ∧ (∀ pre row post, bm.buttons = pre ++ row :: post →
        (∀ b ∈ row, b.isHidden = true) →
        bm.toJSON ctx fresh =
          ButtonManager.toJSON { buttons := pre ++ post, frozen := bm.frozen } ctx fresh) := by
  refine ⟨fun ds hds => ?_, fun hreach i => ?_, fun r hr => ?_, ?_, fun pre row post hsplit hhid => ?_⟩
  · have hnr : newRowL bm.buttons = bm.buttons := by
      rw [hds, newRowL_concat]
      simp
    simp [ButtonManager.newRow, hnr]
  · exact normal_no_adjacent_empty bm.buttons (reachable_normal bm hreach).2 i
  · have hlen : 0 < r.length := by
      have hh := hr
      simp only [ButtonManager.toJSON, List.mem_filter, decide_eq_true_eq] at hh
      exact hh.2
    exact List.ne_nil_of_length_pos hlen
  · exact List.filter_sublist _
  · have hrow : row.filterMap (fun b => b.toJSON ctx fresh) = [] := by
      rw [List.filterMap_eq_nil_iff]
      intro b hb
      simp [Button.toJSON, hhid b hb]
    simp [ButtonManager.toJSON, hsplit, List.map_append, List.filter_append, hrow]

/-- A concrete run of C4: `newRow` on a fresh manager (empty current row) is a no-op,
and a row consisting of one hidden button serializes exactly as if the row were not
there. -/
theorem claim4_witness :
    (ButtonManager.new : ButtonManager Nat).newRow = ButtonManager.new
    ∧ ButtonManager.toJSON
        { buttons := [[((Button.new (BtnLabel.str "H")
            ({ type := BKind.action,
               requirement := { require := some (fun _ => false), hidden := true } } :
              ButtonOpts Nat) "th").evaluateRequirement 0).1], []]
          frozen := false } 0 "f" =
      ButtonManager.toJSON { buttons := [[]], frozen := false } 0 "f" := by
  constructor
  · exact (claim4_grid_row_structure (ButtonManager.new : ButtonManager Nat) 0 "f").1 [] rfl
  · exact (claim4_grid_row_structure _ 0 "f").2.2.2.2 []
      [((Button.new (BtnLabel.str "H")
          ({ type := BKind.action,
             requirement := { require := some (fun _ => false), hidden := true } } :
            ButtonOpts Nat) "th").evaluateRequirement 0).1] [[]] rfl
      (by intro b hb; rw [List.mem_singleton] at hb; subst hb; rfl)

/-- The flattened scan order of the router: menus in registration order (the JS
`for…in` over the registry object visits non-index string keys in insertion order),
rows top-to-bottom, columns left-to-right, each button paired with the menu that owns
it; every menu contributes its currently rendered grid. -/
def scanOrder (menus : List (String × Menu C P)) : List (Button C × Menu C P) :=
  menus.flatMap (fun q => (q.2.rendered.buttons.flatten).map (fun b => (b, q.2)))

/-- The column loop is a `find?` over the row. -/
theorem findInRow_eq_find? {C : Type} (cbd : String) (row : List (Button C)) :
    findInRow cbd row = row.find? (fun b => decide (b.callbackData = some cbd)) := by
  induction row with
  | nil => rfl
  | cons b bs ih =>
    by_cases h : b.callbackData = some cbd
    · rw [List.find?_cons_of_pos _ (by simpa using h)]
      simp [findInRow, h]
    · rw [List.find?_cons_of_neg _ (by simpa using h)]
      simp [findInRow, h, ih]

/-- The nested row/column loops are a `find?` over the flattened grid. -/
theorem findInRows_eq_find? {C : Type} (cbd : String) (rows : List (List (Button C))) :
    findInRows cbd rows = rows.flatten.find? (fun b => decide (b.callbackData = some cbd)) := by
  induction rows with
  | nil => rfl
  | cons r rs ih =>
    rw [List.flatten_cons, List.find?_append, ← findInRow_eq_find?]
    cases h : findInRow cbd r with
    | some b => simp [findInRows, h, Option.or]
    | none => simp [findInRows, h, ih, Option.or]

/-- `find?` commutes with pairing every element with a fixed owner. -/
theorem find?_map_pair {C P : Type} (m : Menu C P) (bs : List (Button C)) (cbd : String) :
    (bs.map (fun b => (b, m))).find? (fun q => decide (q.1.callbackData = some cbd)) =
      (bs.find? (fun b => decide (b.callbackData = some cbd))).map (fun b => (b, m)) := by
  induction bs with
  | nil => rfl
  | cons b bs ih =>
    by_cases h : b.callbackData = some cbd
    · rw [List.map_cons, List.find?_cons_of_pos _ (by simpa using h),
        List.find?_cons_of_pos _ (by simpa using h)]
      rfl
    · rw [List.map_cons, List.find?_cons_of_neg _ (by simpa using h),
        List.find?_cons_of_neg _ (by simpa using h), ih]

/-- The router's nested menu/row/column loops with early `break` return exactly the
first match of the flattened scan order. -/
theorem findRoute_eq_scan {C P : Type} (cbd : String) (menus : List (String × Menu C P)) :
    findRoute cbd menus =
      (scanOrder menus).find? (fun q => decide (q.1.callbackData = some cbd)) := by
  induction menus with
  | nil => rfl
  | cons x rest ih =>
    obtain ⟨mid, m⟩ := x
    have hcons : scanOrder ((mid, m) :: rest) =
        (m.rendered.buttons.flatten.map (fun b => (b, m))) ++ scanOrder rest := by
      simp [scanOrder, List.flatMap_cons]
    rw [hcons, List.find?_append, find?_map_pair, ← findInRows_eq_find?]
    cases h : findInRows cbd m.rendered.buttons with
    | some b => simp [findRoute, h, Option.or]
    | none => simp [findRoute, h, ih, Option.or]

/-- C5: the router scans every registered menu's currently rendered grid (the transient
grid when one exists, never the static one then) in registration order, rows
top-to-bottom, columns left-to-right; the first button whose identifier equals the token
is invoked with an api bound to the menu that owns it — whatever menu's middleware
initiated the routing — and an unmatched token yields the logged unroutable outcome
with no invocation and no error. -/
theorem claim5_routing {C P : Type} (self self' : Menu C P)
    (menus : List (String × Menu C P)) (ctx : C) (cbd : String) :
    (findRoute cbd menus =
      (scanOrder menus).find? (fun q => decide (q.1.callbackData = some cbd)))
    ∧ (∀ (m : Menu C P) (t : ButtonManager C), m.temporaryButtons = some t → m.rendered = t)
    ∧ (∀ (b : Button C) (m : Menu C P), findRoute cbd menus = some (b, m) →
        self.routeCallback menus ctx (some cbd) =
          RouteOutcome.invoked b
            { boundMenuId := m.menuId, boundParentId := m.parentMenuId }
            (b.handler ctx { boundMenuId := m.menuId, boundParentId := m.parentMenuId }))
    ∧ (findRoute cbd menus = none →
        self.routeCallback menus ctx (some cbd) = RouteOutcome.unroutable cbd)
    ∧ (self.routeCallback menus ctx (some cbd) = self'.routeCallback menus ctx (some cbd)) := by
  refine ⟨findRoute_eq_scan cbd menus, fun m t ht => by simp [Menu.rendered, ht],
    fun b m hf => ?_, fun hf => ?_, ?_⟩
  · simp [Menu.routeCallback, hf, Menu.createMenuApi]
  · simp [Menu.routeCallback, hf]
  · cases hf : findRoute cbd menus with
    | some q => simp [Menu.routeCallback, hf, Menu.createMenuApi]
    | none => simp [Menu.routeCallback, hf]

/-- A button living in the second of two registered menus. -/
def routeBtn : Button Nat :=
  Button.new (BtnLabel.str "Target") ({ type := BKind.action } : ButtonOpts Nat) "tokT"

/-- First registered menu (does not contain the routed token). -/
def menuOne : Menu Nat Nat := (Menu.new "one").text (BtnLabel.str "A") none {} "tokA"

/-- Second registered menu, the owner of the routed token. -/
def menuTwo : Menu Nat Nat := (Menu.new "two").text (BtnLabel.str "Target") none {} "tokT"

/-- A concrete run of C5: routing initiated through the first menu's middleware invokes
the second menu's button with an api bound to the second menu. -/
theorem claim5_witness :
    Menu.routeCallback menuOne [("one", menuOne), ("two", menuTwo)] 0 (some "tokT") =
      RouteOutcome.invoked routeBtn
        { boundMenuId := menuTwo.menuId, boundParentId := menuTwo.parentMenuId }
        (routeBtn.handler 0
          { boundMenuId := menuTwo.menuId, boundParentId := menuTwo.parentMenuId }) :=
  (claim5_routing menuOne menuOne [("one", menuOne), ("two", menuTwo)] 0 "tokT").2.2.1
    routeBtn menuTwo (by rfl)

/-- C10: registering a menu stores it deep-frozen (the manager, every row array and
every contained button); on the frozen menu every builder call that would push onto the
static grid (`text`, `url`, `webApp`, the placeholder push of `dynamic`, and `newRow`
with a non-empty current row) throws a `TypeError` and leaves the static grid
unchanged (`dynamic` still extends the private generator list before throwing); while
requirement evaluation, serialization and the render-state update of `#evaluate`
(private fields only) behave on the frozen menu exactly as on the unfrozen one. -/
theorem claim10_registration_freezes {C P : Type} (st : ManagerState C P) (m : Menu C P)
    (label : BtnLabel C) (mw : Option (Handler C)) (req : RequirementOpts C)
    (tok u : String) (g : C → P → ButtonManager C → ButtonManager C)
    (ctx : C) (pl : P) (b : Button C) (fresh : String) :
    ((st.menus.find? (fun p => p.1 == m.menuId)) = none →
      (MenuManager.registerMenu st m).menus = st.menus ++ [(m.menuId, m.freeze)])
    ∧ ((m.freeze).buttons.frozen = true
        ∧ ∀ row ∈ (m.freeze).buttons.buttons, ∀ b' ∈ row, b'.frozen = true)
    ∧ ((m.freeze).textF label mw req tok = (m.freeze, some JsError.typeError))
    ∧ ((m.freeze).urlF label u req = (m.freeze, some JsError.typeError))
    ∧ ((m.freeze).webAppF label u req = (m.freeze, some JsError.typeError))
    ∧ (((m.freeze).dynamicF g).1.buttons = (m.freeze).buttons
        ∧ ((m.freeze).dynamicF g).2 = some JsError.typeError)
    ∧ (∀ ds cur, (m.freeze).buttons.buttons = ds ++ [cur] → cur ≠ [] →
        (m.freeze).rowF = (m.freeze, some JsError.typeError))
    ∧ ((Button.freeze b).evaluateRequirement ctx =
        (((b.evaluateRequirement ctx).1).freeze, (b.evaluateRequirement ctx).2))
    ∧ ((Button.freeze b).toJSON ctx fresh = b.toJSON ctx fresh)
    ∧ (((m.freeze).evaluate ctx pl).temporaryButtons =
        some ((mergeRows ((m.freeze).genContent ctx pl) ButtonManager.new
          (m.freeze).buttons.buttons).evaluateAll ctx)) := by
  refine ⟨fun hnone => ?_, ⟨rfl, fun row hrow b' hb' => ?_⟩, ?_, ?_, ?_, ⟨?_, ?_⟩,
    fun ds cur hds hcur => ?_, ?_, ?_, rfl⟩
  · simp [MenuManager.registerMenu, hnone]
  · simp only [Menu.freeze, ButtonManager.freeze] at hrow
    simp only [List.mem_map] at hrow
    obtain ⟨row₀, _, hrow₀⟩ := hrow
    subst hrow₀
    simp only [List.mem_map] at hb'
    obtain ⟨b₀, _, hb₀⟩ := hb'
    subst hb₀
    rfl
  · simp [Menu.textF, ButtonManager.addButtonF, Menu.freeze, ButtonManager.freeze]
  · simp [Menu.urlF, ButtonManager.addButtonF, Menu.freeze, ButtonManager.freeze]
  · simp [Menu.webAppF, ButtonManager.addButtonF, Menu.freeze, ButtonManager.freeze]
  · simp [Menu.dynamicF, ButtonManager.addButtonF, Menu.freeze, ButtonManager.freeze]
  · simp [Menu.dynamicF, ButtonManager.addButtonF, Menu.freeze, ButtonManager.freeze]
  · have hfr : (m.freeze).buttons.frozen = true := rfl
    have hcond : (m.freeze).buttons.buttons.length = 0 ∨
        0 < (((m.freeze).buttons.buttons.getLast?).getD []).length := by
      right
      rw [hds, List.getLast?_concat]
      simpa [List.length_pos] using hcur
    have hnf : (m.freeze).buttons.newRowF = ((m.freeze).buttons, some JsError.typeError) := by
      rw [ButtonManager.newRowF, if_pos hcond, if_pos hfr]
    unfold Menu.rowF
    rw [hnf]
  · unfold Button.evaluateRequirement Button.freeze
    by_cases hp : b.type = BKind.placeholder <;> simp [hp]
  · unfold Button.toJSON Button.freeze
    rfl

/-- A frozen demo menu for the C10 witness. -/
def frozenDemo : Menu Nat Nat := ((Menu.new "frost").text (BtnLabel.str "A") none {} "tokF").freeze

/-- A concrete run of C10: on the registered (frozen) copy of a menu, `text` throws a
`TypeError` leaving the menu unchanged, `newRow` with a non-empty current row throws,
and requirement evaluation on a frozen button still works. -/
theorem claim10_witness :
    frozenDemo.textF (BtnLabel.str "New") none {} "tokG" = (frozenDemo, some JsError.typeError)
    ∧ frozenDemo.rowF = (frozenDemo, some JsError.typeError)
    ∧ (Button.freeze (Button.new (BtnLabel.str "A") ({ type := BKind.action } : ButtonOpts Nat)
        "tokF")).evaluateRequirement 0 =
      ((((Button.new (BtnLabel.str "A") ({ type := BKind.action } : ButtonOpts Nat)
        "tokF").evaluateRequirement 0).1).freeze,
        ((Button.new (BtnLabel.str "A") ({ type := BKind.action } : ButtonOpts Nat)
          "tokF").evaluateRequirement 0).2) :=
  ⟨(claim10_registration_freezes ({} : ManagerState Nat Nat)
      ((Menu.new "frost").text (BtnLabel.str "A") none {} "tokF")
      (BtnLabel.str "New") none {} "tokG" "u" (fun _ _ bm => bm) 0 0
      (Button.new (BtnLabel.str "A") ({ type := BKind.action } : ButtonOpts Nat) "tokF")
      "fr").2.2.1,
   (claim10_registration_freezes ({} : ManagerState Nat Nat)
      ((Menu.new "frost").text (BtnLabel.str "A") none {} "tokF")
      (BtnLabel.str "New") none {} "tokG" "u" (fun _ _ bm => bm) 0 0
      (Button.new (BtnLabel.str "A") ({ type := BKind.action } : ButtonOpts Nat) "tokF")
      "fr").2.2.2.2.2.2.1 []
      [Button.freeze (Button.new (BtnLabel.str "A") ({ type := BKind.action } : ButtonOpts Nat) "tokF")]
      rfl (by simp),
   (claim10_registration_freezes ({} : ManagerState Nat Nat)
      ((Menu.new "frost").text (BtnLabel.str "A") none {} "tokF")
      (BtnLabel.str "New") none {} "tokG" "u" (fun _ _ bm => bm) 0 0
      (Button.new (BtnLabel.str "A") ({ type := BKind.action } : ButtonOpts Nat) "tokF")
      "fr").2.2.2.2.2.2.2.1⟩

/-! ### The specification-level shape of the `#evaluate` merge

`hJoin` glues two grids at their seam (last row of the first against first row of the
second), which is exactly how content spliced "in place" continues the row in which the
placeholder sat while keeping every internal row break of both sides. -/

/-- Glue two grids at their seam row. -/
def hJoin : List (List α) → List (List α) → List (List α)
  | a, [] => a
  | [], b :: bs => b :: bs
  | [r], b :: bs => (r ++ b) :: bs
  | r :: r' :: rs, b :: bs => r :: hJoin (r' :: rs) (b :: bs)

theorem hJoin_nil_right (a : List (List α)) : hJoin a [] = a := by
  cases a with
  | nil => rfl
  | cons r rs => cases rs <;> rfl

theorem hJoin_nil_left (b : List (List α)) : hJoin [] b = b := by
  cases b <;> rfl

theorem hJoin_concat_left (ds : List (List α)) (cur : List α) (b : List α)
    (bs : List (List α)) :
    hJoin (ds ++ [cur]) (b :: bs) = ds ++ (cur ++ b) :: bs := by
  induction ds with
  | nil => rfl
  | cons d ds ih =>
    cases ds with
    | nil => simp [hJoin]
    | cons d' ds' => simpa [hJoin] using ih

theorem hJoin_ne_nil (a b : List (List α)) (ha : a ≠ []) : hJoin a b ≠ [] := by
  obtain ⟨ds, cur, hds⟩ := (List.eq_nil_or_concat a).resolve_left ha
  rw [List.concat_eq_append] at hds
  subst hds
  cases b with
  | nil => rw [hJoin_nil_right]; simp
  | cons x xs => rw [hJoin_concat_left]; simp

theorem hJoin_assoc (a b c : List (List α)) :
    hJoin (hJoin a b) c = hJoin a (hJoin b c) := by
  rcases List.eq_nil_or_concat a with ha | ⟨ds, cur, hds⟩
  · subst ha; rw [hJoin_nil_left, hJoin_nil_left]
  · rw [List.concat_eq_append] at hds
    subst hds
    cases b with
    | nil => rw [hJoin_nil_right, hJoin_nil_left]
    | cons br bs =>
      cases c with
      | nil => rw [hJoin_nil_right, hJoin_nil_right]
      | cons cr cs =>
        rcases List.eq_nil_or_concat bs with hbs | ⟨bs', bl, hbs⟩
        · subst hbs
          rw [hJoin_concat_left]
          rw [show (ds ++ (cur ++ br) :: ([] : List (List α))) = ds ++ [cur ++ br] from rfl]
          rw [hJoin_concat_left]
          rw [show hJoin [br] (cr :: cs) = (br ++ cr) :: cs from rfl]
          rw [hJoin_concat_left]
          simp
        · rw [List.concat_eq_append] at hbs
          subst hbs
          rw [hJoin_concat_left]
          have h1 : ds ++ (cur ++ br) :: (bs' ++ [bl]) = (ds ++ (cur ++ br) :: bs') ++ [bl] := by
            simp
          rw [h1, hJoin_concat_left]
          have h2 : br :: (bs' ++ [bl]) = (br :: bs') ++ [bl] := by simp
          rw [h2, hJoin_concat_left, List.cons_append, hJoin_concat_left]
          simp

theorem hJoin_append_right (a e y : List (List α)) (he : e ≠ []) :
    hJoin a (e ++ y) = hJoin a e ++ y := by
  obtain ⟨f, fs, hef⟩ := List.exists_cons_of_ne_nil he
  subst hef
  rcases List.eq_nil_or_concat a with ha | ⟨ds, cur, hds⟩
  · subst ha
    rw [List.cons_append, hJoin_nil_left, hJoin_nil_left]
    simp
  · rw [List.concat_eq_append] at hds
    subst hds
    rw [List.cons_append, hJoin_concat_left, hJoin_concat_left]
    simp

theorem hJoin_rows_ne (a b : List (List α)) (ha : ∀ r ∈ a, r ≠ [])
    (hb : ∀ r ∈ b, r ≠ []) : ∀ r ∈ hJoin a b, r ≠ [] := by
  cases b with
  | nil => rw [hJoin_nil_right]; exact ha
  | cons br bs =>
    rcases List.eq_nil_or_concat a with hae | ⟨ds, cur, hds⟩
    · subst hae; rw [hJoin_nil_left]; exact hb
    · rw [List.concat_eq_append] at hds
      subst hds
      rw [hJoin_concat_left]
      intro r hr
      rcases List.mem_append.mp hr with hm | hm
      · exact ha r (by simp [hm])
      · rcases List.mem_cons.mp hm with rfl | hm'
        · have hbr : br ≠ [] := hb br (by simp)
          simp [hbr]
        · exact hb r (by simp [hm'])

/-- The sub-grid an element contributes to the merged grid: a recognized placeholder
contributes its recorded content (nothing when the slot recorded nothing or an empty
row list), any other element contributes itself as a one-cell grid. -/
def expandButton (gen : GenContent C) (b : Button C) : List (List (Button C)) :=
  if b.isPlaceholderMark then
    match lookupContent gen b.dynamicIdOf with
    | some dynRows => if 0 < dynRows.length then dynRows else []
    | none => []
  else [[b]]

/-- The expansion of one static row: the seam-join of its elements' contributions. -/
def expandRow (gen : GenContent C) : List (Button C) → List (List (Button C))
  | [] => []
  | b :: bs => hJoin (expandButton gen b) (expandRow gen bs)

/-- The expansion of the whole static grid: the row expansions stacked with the outer
row breaks kept between them. -/
def expandGrid (gen : GenContent C) (rows : List (List (Button C))) :
    List (List (Button C)) :=
  (rows.map (expandRow gen)).flatten

/-- A placeholder's recorded content is present and well-shaped: at least one row and
no empty rows (what any range-built transient grid with actual content looks like). -/
def GoodContent (gen : GenContent C) (b : Button C) : Prop :=
  b.isPlaceholderMark = true →
    match lookupContent gen b.dynamicIdOf with
    | some dynRows => dynRows ≠ [] ∧ ∀ r ∈ dynRows, r ≠ []
    | none => False

theorem foldl_addButton_buttons (r : List (Button C)) (bm : ButtonManager C)
    (ds : List (List (Button C))) (cur : List (Button C))
    (hds : bm.buttons = ds ++ [cur]) :
    (r.foldl ButtonManager.addButton bm).buttons = ds ++ [cur ++ r] := by
  induction r generalizing bm cur with
  | nil => simpa using hds
  | cons b bs ih =>
    rw [List.foldl_cons]
    have hstep : (bm.addButton b).buttons = ds ++ [cur ++ [b]] := by
      simp [ButtonManager.addButton, hds, pushLast_concat]
    rw [ih (bm.addButton b) (cur ++ [b]) hstep]
    simp

theorem spliceRows_buttons (rows : List (List (Button C))) (bm : ButtonManager C)
    (hne : bm.buttons ≠ []) (hrows : ∀ r ∈ rows, r ≠ []) :
    (spliceRows bm rows).buttons = hJoin bm.buttons rows := by
  induction rows generalizing bm with
  | nil => simp only [spliceRows, hJoin_nil_right]
  | cons r rs ih =>
    obtain ⟨ds, cur, hds⟩ := (List.eq_nil_or_concat bm.buttons).resolve_left hne
    rw [List.concat_eq_append] at hds
    cases rs with
    | nil =>
      simp only [spliceRows]
      rw [foldl_addButton_buttons r bm ds cur hds, hds, hJoin_concat_left]
    | cons r' rs' =>
      simp only [spliceRows]
      have hfold : (r.foldl ButtonManager.addButton bm).buttons = ds ++ [cur ++ r] :=
        foldl_addButton_buttons r bm ds cur hds
      have hrne : cur ++ r ≠ [] := by
        have : r ≠ [] := hrows r (by simp)
        simp [this]
      have hnew : ((r.foldl ButtonManager.addButton bm).newRow).buttons =
          (ds ++ [cur ++ r]) ++ [[]] := by
        have hie : (cur ++ r).isEmpty = false := by
          cases hcr : cur ++ r with
          | nil => exact absurd hcr hrne
          | cons x xs => rfl
        simp [ButtonManager.newRow, hfold, newRowL_concat, hie]
      have ihres := ih ((r.foldl ButtonManager.addButton bm).newRow)
        (by rw [hnew]; simp)
        (fun q hq => hrows q (by simp [hq]))
      rw [ihres, hnew, hJoin_concat_left, hds, hJoin_concat_left]
      simp

theorem mergeButton_buttons (gen : GenContent C) (bm : ButtonManager C) (b : Button C)
    (hne : bm.buttons ≠ []) (hgood : GoodContent gen b) :
    (mergeButton gen bm b).buttons = hJoin bm.buttons (expandButton gen b) := by
  unfold mergeButton expandButton
  by_cases hp : b.isPlaceholderMark = true
  · rw [if_pos hp, if_pos hp]
    have hg := hgood hp
    generalize hl : lookupContent gen b.dynamicIdOf = res at hg ⊢
    cases res with
    | none => exact absurd hg (by simp)
    | some dynRows =>
      show (if 0 < dynRows.length then spliceRows bm dynRows else bm).buttons =
        hJoin bm.buttons (if 0 < dynRows.length then dynRows else [])
      rw [if_pos (List.length_pos.mpr hg.1), if_pos (List.length_pos.mpr hg.1)]
      exact spliceRows_buttons dynRows bm hne hg.2
  · rw [if_neg hp, if_neg hp]
    obtain ⟨ds, cur, hds⟩ := (List.eq_nil_or_concat bm.buttons).resolve_left hne
    rw [List.concat_eq_append] at hds
    rw [hds, hJoin_concat_left]
    simp [ButtonManager.addButton, hds, pushLast_concat]

theorem foldl_mergeButton_buttons (gen : GenContent C) (row : List (Button C))
    (bm : ButtonManager C) (hne : bm.buttons ≠ [])
    (hgood : ∀ b ∈ row, GoodContent gen b) :
    (row.foldl (mergeButton gen) bm).buttons = hJoin bm.buttons (expandRow gen row) := by
  induction row generalizing bm with
  | nil => simp only [List.foldl_nil, expandRow, hJoin_nil_right]
  | cons b bs ih =>
    rw [List.foldl_cons]
    have h1 := mergeButton_buttons gen bm b hne (hgood b (by simp))
    have hne2 : (mergeButton gen bm b).buttons ≠ [] := by
      rw [h1]; exact hJoin_ne_nil _ _ hne
    rw [ih (mergeButton gen bm b) hne2 (fun q hq => hgood q (by simp [hq])), h1,
      hJoin_assoc]
    rfl

theorem expandButton_shape (gen : GenContent C) (b : Button C)
    (hgood : GoodContent gen b) :
    expandButton gen b ≠ [] ∧ ∀ r ∈ expandButton gen b, r ≠ [] := by
  unfold expandButton
  by_cases hp : b.isPlaceholderMark = true
  · rw [if_pos hp]
    have hg := hgood hp
    generalize hl : lookupContent gen b.dynamicIdOf = res at hg ⊢
    cases res with
    | none => exact absurd hg (by simp)
    | some dynRows =>
      show (if 0 < dynRows.length then dynRows else []) ≠ [] ∧
        ∀ r ∈ (if 0 < dynRows.length then dynRows else []), r ≠ []
      rw [if_pos (List.length_pos.mpr hg.1)]
      exact hg
  · rw [if_neg hp]
    exact ⟨by simp, by simp⟩

theorem expandRow_shape (gen : GenContent C) (row : List (Button C)) (hrow : row ≠ [])
    (hgood : ∀ b ∈ row, GoodContent gen b) :
    expandRow gen row ≠ [] ∧ ∀ r ∈ expandRow gen row, r ≠ [] := by
  induction row with
  | nil => exact absurd rfl hrow
  | cons b bs ih =>
    have hb := expandButton_shape gen b (hgood b (by simp))
    cases bs with
    | nil =>
      simp only [expandRow, hJoin_nil_right]
      exact hb
    | cons b' bs' =>
      have ihr := ih (by simp) (fun q hq => hgood q (by simp [hq]))
      simp only [expandRow] at ihr ⊢
      exact ⟨hJoin_ne_nil _ _ hb.1, hJoin_rows_ne _ _ hb.2 ihr.2⟩

theorem expandGrid_ne_nil (gen : GenContent C) (rows : List (List (Button C)))
    (hne : rows ≠ [])
    (hrows : ∀ row ∈ rows, row ≠ [] ∧ ∀ b ∈ row, GoodContent gen b) :
    expandGrid gen rows ≠ [] := by
  obtain ⟨row, rest, hrr⟩ := List.exists_cons_of_ne_nil hne
  subst hrr
  have h := expandRow_shape gen row (hrows row (by simp)).1 (hrows row (by simp)).2
  simp only [expandGrid, List.map_cons, List.flatten_cons]
  intro hc
  exact h.1 (List.append_eq_nil.mp hc).1

theorem last_of_hJoin (a e : List (List α)) (ds : List (List α)) (cur : List α)
    (hds : a = ds ++ [cur]) (he : e ≠ []) (her : ∀ r ∈ e, r ≠ []) :
    ∃ ds2 cur2, hJoin a e = ds2 ++ [cur2] ∧ cur2 ≠ [] := by
  obtain ⟨f, fs, hfe⟩ := List.exists_cons_of_ne_nil he
  subst hfe
  subst hds
  rw [hJoin_concat_left]
  rcases List.eq_nil_or_concat fs with hfs | ⟨fs', lf, hfs⟩
  · subst hfs
    refine ⟨ds, cur ++ f, by simp, ?_⟩
    have hf : f ≠ [] := her f (by simp)
    simp [hf]
  · rw [List.concat_eq_append] at hfs
    subst hfs
    exact ⟨ds ++ (cur ++ f) :: fs', lf, by simp, her lf (by simp)⟩

/-- The full `#evaluate` walk computes the specification-level expansion: every
placeholder replaced in place by its sub-grid with its internal row breaks kept,
non-placeholder elements copied over, and the outer static row breaks kept between the
merged segments. -/
theorem mergeRows_buttons (gen : GenContent C) (rows : List (List (Button C)))
    (bm : ButtonManager C) (hne : bm.buttons ≠ [])
    (hrows : ∀ row ∈ rows, row ≠ [] ∧ ∀ b ∈ row, GoodContent gen b) :
    (mergeRows gen bm rows).buttons = hJoin bm.buttons (expandGrid gen rows) := by
  induction rows generalizing bm with
  | nil => simp only [mergeRows, expandGrid, List.map_nil, List.flatten_nil, hJoin_nil_right]
  | cons row rest ih =>
    cases rest with
    | nil =>
      simp only [mergeRows]
      rw [foldl_mergeButton_buttons gen row bm hne (hrows row (by simp)).2]
      simp [expandGrid]
    | cons row' rest' =>
      simp only [mergeRows]
      have hfold := foldl_mergeButton_buttons gen row bm hne (hrows row (by simp)).2
      have he1 := expandRow_shape gen row (hrows row (by simp)).1 (hrows row (by simp)).2
      obtain ⟨ds, cur, hds⟩ := (List.eq_nil_or_concat bm.buttons).resolve_left hne
      rw [List.concat_eq_append] at hds
      obtain ⟨ds2, cur2, hst, hcur2⟩ :=
        last_of_hJoin bm.buttons (expandRow gen row) ds cur hds he1.1 he1.2
      have hnew : ((row.foldl (mergeButton gen) bm).newRow).buttons =
          hJoin bm.buttons (expandRow gen row) ++ [[]] := by
        have hie : cur2.isEmpty = false := by
          cases hc : cur2 with
          | nil => exact absurd hc hcur2
          | cons x xs => rfl
        rw [ButtonManager.newRow]
        simp only [hfold, hst, newRowL_concat, hie, if_false]
        simp [hst]
      have ihres := ih ((row.foldl (mergeButton gen) bm).newRow)
        (by rw [hnew]; simp) (fun q hq => hrows q (by simp [hq]))
      rw [ihres, hnew]
      have hg2 : expandGrid gen (row' :: rest') ≠ [] :=
        expandGrid_ne_nil gen (row' :: rest') (by simp)
          (fun q hq => hrows q (by simp [hq]))
      obtain ⟨g, gs, hgg⟩ := List.exists_cons_of_ne_nil hg2
      have hsplit : expandGrid gen (row :: row' :: rest') =
          expandRow gen row ++ expandGrid gen (row' :: rest') := by
        simp [expandGrid]
      rw [hsplit, hgg, hJoin_concat_left, hJoin_append_right _ _ _ he1.1]
      simp

/-- A generator that appends X and Y on one row through its range. -/
def genOneRow (lx ly tx ty : String) : C → P → ButtonManager C → ButtonManager C :=
  fun _ _ range =>
    MenuRange.text (MenuRange.text range (BtnLabel.str lx) none {} tx)
      (BtnLabel.str ly) none {} ty

/-- A generator that appends X, calls new-row, then appends Y. -/
def genTwoRows (lx ly tx ty : String) : C → P → ButtonManager C → ButtonManager C :=
  fun _ _ range =>
    MenuRange.text (MenuRange.row (MenuRange.text range (BtnLabel.str lx) none {} tx))
      (BtnLabel.str ly) none {} ty

/-- A menu whose static grid is `[A, placeholder(S), B]` on one row, with the given
generator registered for the slot. -/
def spliceMenu (g : C → P → ButtonManager C → ButtonManager C)
    (la lb ta tb : String) : Menu C P :=
  (((Menu.new "menu").text (BtnLabel.str la) none {} ta).dynamic g).text
    (BtnLabel.str lb) none {} tb

/-- The wire shape of an enabled action button. -/
def wireAction (l t : String) : WireButton :=
  { text := l, url := none, callback_data := some t }

/-- The action button the builder constructs from a label and its generated token. -/
def actionBtn (C : Type) (l t : String) : Button C :=
  Button.new (BtnLabel.str l)
    { type := BKind.action, middleware := none, requirement := {} } t

/-- The placeholder button `Menu.dynamic` inserts for the first dynamic slot. -/
def placeholderBtn0 (C : Type) : Button C :=
  Button.new (BtnLabel.str ("__placeholder_" ++ ("dynamic_" ++ toString (0 : Nat)) ++ "__"))
    { type := BKind.placeholder, requirement := { hidden := true } } ""

/-- C1: every placeholder of the static grid is replaced in place by its generated
sub-grid with the sub-grid's internal row breaks preserved, non-placeholder elements
are copied over unchanged, and the outer static row breaks are preserved between merged
segments (the evaluated grid is exactly the `expandGrid` expansion, followed by the
per-element requirement evaluation); in particular a static row `[A, placeholder, B]`
whose generator appends X and Y serializes to `[[A, X, Y, B]]` when the generator keeps
one row and to `[[A, X], [Y, B]]` when it calls new-row between X and Y. -/
theorem claim1_dynamic_splice {C P : Type} (ctx : C) (pl : P)
    (la lb lx ly ta tb tx ty fresh : String)
    (hta : ta ≠ "") (htb : tb ≠ "") (htx : tx ≠ "") (hty : ty ≠ "") :
    (∀ m : Menu C P, m.buttons.buttons ≠ [] →
      (∀ row ∈ m.buttons.buttons, row ≠ [] ∧
        ∀ b ∈ row, GoodContent (m.genContent ctx pl) b) →
      ∃ t, (m.evaluate ctx pl).temporaryButtons = some t ∧
        t.buttons = (expandGrid (m.genContent ctx pl) m.buttons.buttons).map
          (fun row => row.map (fun b => (b.evaluateRequirement ctx).1)))
    ∧ ((spliceMenu (genOneRow lx ly tx ty) la lb ta tb : Menu C P).evaluate ctx
        pl).toJSON ctx fresh =
      { inline_keyboard := [[wireAction la ta, wireAction lx tx, wireAction ly ty,
          wireAction lb tb]] }
    ∧ ((spliceMenu (genTwoRows lx ly tx ty) la lb ta tb : Menu C P).evaluate ctx
        pl).toJSON ctx fresh =
      { inline_keyboard := [[wireAction la ta, wireAction lx tx],
          [wireAction ly ty, wireAction lb tb]] } := by
  refine ⟨fun m hne hrows => ?_, ?_, ?_⟩
  · refine ⟨_, rfl, ?_⟩
    have h1 := mergeRows_buttons (m.genContent ctx pl) m.buttons.buttons
      ButtonManager.new (by simp [ButtonManager.new]) hrows
    have hgne : expandGrid (m.genContent ctx pl) m.buttons.buttons ≠ [] :=
      expandGrid_ne_nil _ _ hne hrows
    obtain ⟨g, gs, hgg⟩ := List.exists_cons_of_ne_nil hgne
    have h2 : (mergeRows (m.genContent ctx pl) ButtonManager.new
        m.buttons.buttons).buttons =
        expandGrid (m.genContent ctx pl) m.buttons.buttons := by
      rw [h1, hgg]
      rw [show (ButtonManager.new : ButtonManager C).buttons =
        ([] : List (List (Button C))) ++ [[]] from rfl]
      rw [hJoin_concat_left]
      simp
    simp [ButtonManager.evaluateAll, h2]
  · have hgrid : (spliceMenu (genOneRow lx ly tx ty) la lb ta tb : Menu C P).buttons.buttons
        = [[actionBtn C la ta, placeholderBtn0 C, actionBtn C lb tb]] := rfl
    have hgen : (spliceMenu (genOneRow lx ly tx ty) la lb ta tb : Menu C P).genContent ctx pl
        = [("dynamic_" ++ toString (0 : Nat),
            [[actionBtn C lx tx, actionBtn C ly ty]])] := rfl
    have hmerge : mergeRows
        [("dynamic_" ++ toString (0 : Nat), [[actionBtn C lx tx, actionBtn C ly ty]])]
        ButtonManager.new [[actionBtn C la ta, placeholderBtn0 C, actionBtn C lb tb]]
        = { buttons := [[actionBtn C la ta, actionBtn C lx tx, actionBtn C ly ty,
              actionBtn C lb tb]], frozen := false } := rfl
    have hrend : ((spliceMenu (genOneRow lx ly tx ty) la lb ta tb : Menu C P).evaluate ctx
          pl).rendered
        = (mergeRows
            ((spliceMenu (genOneRow lx ly tx ty) la lb ta tb : Menu C P).genContent ctx pl)
            ButtonManager.new
            (spliceMenu (genOneRow lx ly tx ty) la lb ta tb : Menu C P).buttons.buttons).evaluateAll
            ctx := rfl
    rw [Menu.toJSON, hrend, hgen, hgrid, hmerge]
    simp [ButtonManager.evaluateAll, ButtonManager.toJSON, Button.evaluateRequirement,
      actionBtn, Button.new, Button.toJSON, Button.getLabel, wireAction,
      hta, htb, htx, hty]
  · have hgrid : (spliceMenu (genTwoRows lx ly tx ty) la lb ta tb : Menu C P).buttons.buttons
        = [[actionBtn C la ta, placeholderBtn0 C, actionBtn C lb tb]] := rfl
    have hgen : (spliceMenu (genTwoRows lx ly tx ty) la lb ta tb : Menu C P).genContent ctx pl
        = [("dynamic_" ++ toString (0 : Nat),
            [[actionBtn C lx tx], [actionBtn C ly ty]])] := rfl
    have hmerge : mergeRows
        [("dynamic_" ++ toString (0 : Nat), [[actionBtn C lx tx], [actionBtn C ly ty]])]
        ButtonManager.new [[actionBtn C la ta, placeholderBtn0 C, actionBtn C lb tb]]
        = { buttons := [[actionBtn C la ta, actionBtn C lx tx],
              [actionBtn C ly ty, actionBtn C lb tb]], frozen := false } := rfl
    have hrend : ((spliceMenu (genTwoRows lx ly tx ty) la lb ta tb : Menu C P).evaluate ctx
          pl).rendered
        = (mergeRows
            ((spliceMenu (genTwoRows lx ly tx ty) la lb ta tb : Menu C P).genContent ctx pl)
            ButtonManager.new
            (spliceMenu (genTwoRows lx ly tx ty) la lb ta tb : Menu C P).buttons.buttons).evaluateAll
            ctx := rfl
    rw [Menu.toJSON, hrend, hgen, hgrid, hmerge]
    simp [ButtonManager.evaluateAll, ButtonManager.toJSON, Button.evaluateRequirement,
      actionBtn, Button.new, Button.toJSON, Button.getLabel, wireAction,
      hta, htb, htx, hty]

/-- A concrete run of C1: with labels A/B/X/Y and non-empty tokens, the one-row
generator serializes to `[[A, X, Y, B]]` and the generator with a new-row between X and
Y to `[[A, X], [Y, B]]`. -/
theorem claim1_witness :
    ((spliceMenu (genOneRow "X" "Y" "tx" "ty") "A" "B" "ta" "tb" : Menu Nat Nat).evaluate
        0 0).toJSON 0 "fresh" =
      { inline_keyboard := [[wireAction "A" "ta", wireAction "X" "tx",
          wireAction "Y" "ty", wireAction "B" "tb"]] }
    ∧ ((spliceMenu (genTwoRows "X" "Y" "tx" "ty") "A" "B" "ta" "tb" : Menu Nat Nat).evaluate
        0 0).toJSON 0 "fresh" =
      { inline_keyboard := [[wireAction "A" "ta", wireAction "X" "tx"],
          [wireAction "Y" "ty", wireAction "B" "tb"]] } :=
  ⟨(claim1_dynamic_splice (0 : Nat) (0 : Nat) "A" "B" "X" "Y" "ta" "tb" "tx" "ty" "fresh"
      (by decide) (by decide) (by decide) (by decide)).2.1,
   (claim1_dynamic_splice (0 : Nat) (0 : Nat) "A" "B" "X" "Y" "ta" "tb" "tx" "ty" "fresh"
      (by decide) (by decide) (by decide) (by decide)).2.2⟩

end TeleMenu
